import Mathlib

/-!
Verification of the MontaukOS Intel e1000e network driver
(`src/kernel/src/Drivers/Net/E1000E.cpp` / `E1000E.hpp`).

The driver is shallowly embedded: the process-wide driver singleton
(`g_initialized`, the two descriptor rings, tail indices, counters, the
registered RX callback and the polling reentrancy flag) becomes an explicit
`DriverState` record, and each driver function becomes a Lean function on
that record.  Machine integers are modelled as `Nat`; the only overflow the
driver relies on is the explicit `% 32` ring wrap, which is kept literally.

MMIO register writes are modelled twice over: a register file
(`regs : Nat → Nat`, offset to last written value) and a chronological
`writeLog`, so that both "the doorbell now holds v" and "no register write
occurred" are expressible.  Hardware-driven registers that do not behave
like memory (the EEPROM data register, the MDIC PHY register, the two
firmware-semaphore registers) are modelled by explicit read oracles /
abstract device state machines, mirroring the mock-register design the
repository's documentation suggests for testing.
-/

namespace E1000E

/-- Register byte offsets, from `E1000E.hpp`. -/
def REG_CTRL : Nat := 0x0000
def REG_STATUS : Nat := 0x0008
def REG_EERD : Nat := 0x0014
def REG_MDIC : Nat := 0x0020
def REG_ICR : Nat := 0x00C0
def REG_IMS : Nat := 0x00D0
def REG_IMC : Nat := 0x00D8
def REG_RCTL : Nat := 0x0100
def REG_TCTL : Nat := 0x0400
def REG_TIPG : Nat := 0x0410
def REG_RDBAL : Nat := 0x2800
def REG_RDBAH : Nat := 0x2804
def REG_RDLEN : Nat := 0x2808
def REG_RDH : Nat := 0x2810
def REG_RDT : Nat := 0x2818
def REG_TDBAL : Nat := 0x3800
def REG_TDBAH : Nat := 0x3804
def REG_TDLEN : Nat := 0x3808
def REG_TDH : Nat := 0x3810
def REG_TDT : Nat := 0x3818
def REG_RAL : Nat := 0x5400
def REG_RAH : Nat := 0x5404
def REG_EXTCNF_CTRL : Nat := 0x0F00
def REG_SWSM : Nat := 0x5B50

/-- CTRL register bits. -/
def CTRL_RST : Nat := 1 <<< 26

/-- MDIC register fields (`E1000E.hpp`). -/
def MDIC_DATA_MASK : Nat := 0x0000FFFF
def MDIC_REG_SHIFT : Nat := 16
def MDIC_PHY_SHIFT : Nat := 21
def MDIC_OP_READ : Nat := 2 <<< 26
def MDIC_OP_WRITE : Nat := 1 <<< 26
def MDIC_READY : Nat := 1 <<< 28
def MDIC_ERROR : Nat := 1 <<< 30

/-- Semaphore bits. -/
def SWSM_SMBI : Nat := 1
def EXTCNF_CTRL_SWFLAG : Nat := 1 <<< 5

/-- Interrupt cause bits. -/
def ICR_TXDW : Nat := 1 <<< 0
def ICR_TXQE : Nat := 1 <<< 1
def ICR_LSC : Nat := 1 <<< 2
def ICR_RXDMT0 : Nat := 1 <<< 4
def ICR_RXT0 : Nat := 1 <<< 7

/-- TX descriptor command bits. -/
def TXCMD_EOP : Nat := 1 <<< 0
def TXCMD_IFCS : Nat := 1 <<< 1
def TXCMD_RS : Nat := 1 <<< 3

/-- TX / RX descriptor-done status bit. -/
def TXSTA_DD : Nat := 1
def RXSTA_DD : Nat := 1

/-- Ring sizes (`E1000E.hpp`): both rings have exactly 32 descriptors. -/
def RX_DESC_COUNT : Nat := 32
def TX_DESC_COUNT : Nat := 32

/-- RX descriptor, legacy 16-byte format (fields as in `E1000E.hpp`). -/
structure RxDescriptor where
  BufferAddress : Nat
  Length : Nat
  Checksum : Nat
  Status : Nat
  Errors : Nat
  Special : Nat
deriving DecidableEq

/-- TX descriptor, legacy 16-byte format (fields as in `E1000E.hpp`). -/
structure TxDescriptor where
  BufferAddress : Nat
  Length : Nat
  ChecksumOffset : Nat
  Command : Nat
  Status : Nat
  ChecksumStart : Nat
  Special : Nat
deriving DecidableEq

/--
The driver's process-wide singleton state (`E1000E.cpp`, lines 96–124 and
682), made explicit.  Descriptor arrays and per-slot buffer tables become
functions from slot index; only indices below 32 are ever meaningful.
`txBuffers` holds TX packet-buffer contents (byte lists), `rxBuffers` the
per-slot RX buffer pointers handed to the callback (opaque numbers).
`regs` is the MMIO register file (last value written at each offset) and
`writeLog` the chronological list of `(offset, value)` register writes.
`callbackLog` records each RX-callback invocation as
`(buffer pointer, length)`.  `hasRxCallback` models `g_rxCallback != nullptr`
and `polling` the `g_polling` reentrancy flag.
-/
structure DriverState where
  initialized : Bool
  pollingMode : Bool
  rxDescs : Nat → RxDescriptor
  txDescs : Nat → TxDescriptor
  rxBuffers : Nat → Nat
  txBuffers : Nat → List Nat
  rxBuffersPhys : Nat → Nat
  txBuffersPhys : Nat → Nat
  rxTail : Nat
  txTail : Nat
  rxPacketCount : Nat
  txPacketCount : Nat
  hasRxCallback : Bool
  regs : Nat → Nat
  writeLog : List (Nat × Nat)
  callbackLog : List (Nat × Nat)
  polling : Bool

/--
`SendPacket` (`E1000E.cpp`, lines 719–742).  The `data` pointer becomes
`Option (List Nat)` (`none` = `nullptr`); `memcpy` of `length` bytes into the
slot's pre-allocated buffer replaces the buffer's first `length` bytes.
All updates of the success path are gathered in one record update, in the
source's statement order: copy payload, set BufferAddress / Length /
Command, clear Status, advance the tail mod 32, write the new tail to the
TDT doorbell, bump the TX packet counter.
-/
def sendPacket (s : DriverState) (data : Option (List Nat)) (length : Nat) :
    Bool × DriverState :=
  if s.initialized = false ∨ data = none ∨ length = 0 ∨ length > 1518 then
    (false, s)
  else
    let payload := data.getD []
    let desc := s.txDescs s.txTail
    if desc.Status &&& TXSTA_DD = 0 then
      -- "TX ring full" warning; no state is touched
      (false, s)
    else
      let tail := s.txTail
      let newTail := (tail + 1) % TX_DESC_COUNT
      (true,
        { s with
          txBuffers := fun i =>
            if i = tail then payload.take length ++ (s.txBuffers tail).drop length
            else s.txBuffers i,
          txDescs := fun i =>
            if i = tail then
              { desc with
                BufferAddress := s.txBuffersPhys tail,
                Length := length,
                Command := TXCMD_EOP ||| TXCMD_IFCS ||| TXCMD_RS,
                Status := 0 }
            else s.txDescs i,
          txTail := newTail,
          regs := fun r => if r = REG_TDT then newTail else s.regs r,
          writeLog := s.writeLog ++ [(REG_TDT, newTail)],
          txPacketCount := s.txPacketCount + 1 })

/--
One iteration of the RX drain-loop body (`E1000E.cpp`, lines 496–508 and
701–713; the two copies are line-identical): read the done descriptor's
length, bump the RX packet counter, invoke the registered callback (logged
as `(buffer pointer, length)`), clear the descriptor's Status / Length /
Errors, advance the tail to the drained slot and write it to the RDT
doorbell.
-/
def rxDrainStep (s : DriverState) (nextIdx : Nat) : DriverState :=
  let desc := s.rxDescs nextIdx
  { s with
    rxPacketCount := s.rxPacketCount + 1,
    callbackLog :=
      if s.hasRxCallback then s.callbackLog ++ [(s.rxBuffers nextIdx, desc.Length)]
      else s.callbackLog,
    rxDescs := fun j =>
      if j = nextIdx then { desc with Status := 0, Length := 0, Errors := 0 }
      else s.rxDescs j,
    rxTail := nextIdx,
    regs := fun r => if r = REG_RDT then nextIdx else s.regs r,
    writeLog := s.writeLog ++ [(REG_RDT, nextIdx)] }

/--
The RX drain loop shared by `HandleInterrupt` and `PollRx`: inspect the
descriptor after the current tail and stop as soon as its done bit is
clear, otherwise drain it and continue.  Since each drained descriptor's
status is cleared and the inspected slot advances cyclically, the source's
`while (true)` loop always stops within 33 inspections (after 32 drains the
33rd inspected slot is one it already cleared), so running the fuelled loop
with `RX_DESC_COUNT + 1` fuel is exact.
-/
def rxDrainLoop : Nat → DriverState → DriverState
  | 0, s => s
  | fuel + 1, s =>
    let nextIdx := (s.rxTail + 1) % RX_DESC_COUNT
    if (s.rxDescs nextIdx).Status &&& RXSTA_DD = 0 then s
    else rxDrainLoop fuel (rxDrainStep s nextIdx)

/--
`PollRx` (`E1000E.cpp`, lines 684–717): reentrancy-guarded RX drain.  A call
that observes `g_polling` already set returns immediately; otherwise the
flag is set, the ring drained, and the flag cleared.
-/
def pollRx (s : DriverState) : DriverState :=
  if s.polling then s
  else
    let s1 := rxDrainLoop (RX_DESC_COUNT + 1) { s with polling := true }
    { s1 with polling := false }

/--
`Poll` (`E1000E.cpp`, lines 756–761): guarded by the initialized flag;
uninitialized drivers return before touching any register or ring.
-/
def poll (s : DriverState) : DriverState :=
  if s.initialized = false then s else pollRx s

/--
`HandleInterrupt` (`E1000E.cpp`, lines 471–515), with the read-and-cleared
interrupt-cause value passed in as `icr`.  Zero is spurious and ignored; a
link-status-change cause only logs; an RX-timer cause drains the RX ring
with the same loop as `PollRx` (the dispatch copy has no reentrancy guard);
TX causes produce no action.
-/
def handleInterrupt (s : DriverState) (icr : Nat) : DriverState :=
  if icr = 0 then s
  else if icr &&& ICR_RXT0 ≠ 0 then rxDrainLoop (RX_DESC_COUNT + 1) s
  else s

/--
`SetupRx` (`E1000E.cpp`, lines 343–375).  Physical/virtual page allocation
is abstracted by the parameters: `descPhys` is the descriptor array's
physical address, `bufPhys i` / `bufVirt i` the i-th packet buffer's
physical address and (opaque) virtual pointer.  Every descriptor records
its buffer's physical address and zeroed Status / Length / Checksum /
Errors / Special; the source also allocates a second page per slot whose
address is discarded (vestigial, nothing to model).  Registers: base
low/high, length, head = 0, tail = count − 1; the software tail mirror is
set to count − 1; RCTL enables the receiver.
-/
def setupRx (s : DriverState) (descPhys : Nat) (bufPhys bufVirt : Nat → Nat) :
    DriverState :=
  { s with
    rxDescs := fun i =>
      if i < RX_DESC_COUNT then
        { BufferAddress := bufPhys i, Length := 0, Checksum := 0,
          Status := 0, Errors := 0, Special := 0 }
      else s.rxDescs i,
    rxBuffers := fun i => if i < RX_DESC_COUNT then bufVirt i else s.rxBuffers i,
    rxBuffersPhys := fun i => if i < RX_DESC_COUNT then bufPhys i else s.rxBuffersPhys i,
    rxTail := RX_DESC_COUNT - 1,
    regs := fun r =>
      if r = REG_RCTL then 2 ||| (1 <<< 15) ||| (1 <<< 26) ||| (3 <<< 16) ||| (1 <<< 25)
      else if r = REG_RDT then RX_DESC_COUNT - 1
      else if r = REG_RDH then 0
      else if r = REG_RDLEN then RX_DESC_COUNT * 16
      else if r = REG_RDBAH then descPhys >>> 32
      else if r = REG_RDBAL then descPhys &&& 0xFFFFFFFF
      else s.regs r,
    writeLog := s.writeLog ++
      [(REG_RDBAL, descPhys &&& 0xFFFFFFFF), (REG_RDBAH, descPhys >>> 32),
       (REG_RDLEN, RX_DESC_COUNT * 16), (REG_RDH, 0),
       (REG_RDT, RX_DESC_COUNT - 1),
       (REG_RCTL, 2 ||| (1 <<< 15) ||| (1 <<< 26) ||| (3 <<< 16) ||| (1 <<< 25))] }

/--
`SetupTx` (`E1000E.cpp`, lines 381–414): like RX setup, but every
descriptor's Status starts at `TXSTA_DD` (done), so the first 32 sends see
available slots, and both head and tail registers are programmed to 0.
TX packet buffers start as zeroed pages (4096 zero bytes).
-/
def setupTx (s : DriverState) (descPhys : Nat) (bufPhys : Nat → Nat) :
    DriverState :=
  { s with
    txDescs := fun i =>
      if i < TX_DESC_COUNT then
        { BufferAddress := bufPhys i, Length := 0, ChecksumOffset := 0,
          Command := 0, Status := TXSTA_DD, ChecksumStart := 0, Special := 0 }
      else s.txDescs i,
    txBuffers := fun i =>
      if i < TX_DESC_COUNT then List.replicate 4096 0 else s.txBuffers i,
    txBuffersPhys := fun i => if i < TX_DESC_COUNT then bufPhys i else s.txBuffersPhys i,
    txTail := 0,
    regs := fun r =>
      if r = REG_TIPG then 10 ||| (10 <<< 10) ||| (10 <<< 20)
      else if r = REG_TCTL then 2 ||| 8 ||| (15 <<< 4) ||| (64 <<< 12)
      else if r = REG_TDT then 0
      else if r = REG_TDH then 0
      else if r = REG_TDLEN then TX_DESC_COUNT * 16
      else if r = REG_TDBAH then descPhys >>> 32
      else if r = REG_TDBAL then descPhys &&& 0xFFFFFFFF
      else s.regs r,
    writeLog := s.writeLog ++
      [(REG_TDBAL, descPhys &&& 0xFFFFFFFF), (REG_TDBAH, descPhys >>> 32),
       (REG_TDLEN, TX_DESC_COUNT * 16), (REG_TDH, 0), (REG_TDT, 0),
       (REG_TCTL, 2 ||| 8 ||| (15 <<< 4) ||| (64 <<< 12)),
       (REG_TIPG, 10 ||| (10 <<< 10) ||| (10 <<< 20))] }

/-- Run a list of `SendPacket` calls, collecting each call's Bool result. -/
def runSends : DriverState → List (List Nat × Nat) → List Bool × DriverState
  | s, [] => ([], s)
  | s, c :: cs =>
    let r := sendPacket s (some c.1) c.2
    let rest := runSends r.2 cs
    (r.1 :: rest.1, rest.2)

/-- An externally triggered driver operation after bring-up. -/
inductive NicOp where
  | send (data : Option (List Nat)) (len : Nat)
  | pollOp
  | intr (icr : Nat)

/-- Execute one driver operation. -/
def runOp (s : DriverState) : NicOp → DriverState
  | .send d l => (sendPacket s d l).2
  | .pollOp => poll s
  | .intr icr => handleInterrupt s icr

/-- Execute a sequence of driver operations. -/
def runOps (s : DriverState) (ops : List NicOp) : DriverState :=
  ops.foldl runOp s

/--
The poll loop of `EepromRead` (`E1000E.cpp`, lines 276–281) against a mock
register: `resp i` is the value the i-th `ReadReg(REG_EERD)` returns.
Returns the read result together with the number of poll iterations
performed (instrumentation; the source returns only the value).  Done bit
at position 1, data in bits 16–31.
-/
def eepromReadPoll (resp : Nat → Nat) (i : Nat) : Nat → Nat × Nat
  | 0 => (0, 0)
  | fuel + 1 =>
    let value := resp i
    if value &&& (1 <<< 1) ≠ 0 then ((value >>> 16) &&& 0xFFFF, 1)
    else
      let r := eepromReadPoll resp (i + 1) fuel
      (r.1, r.2 + 1)

/--
`EepromRead` (`E1000E.cpp`, lines 271–285): write the command word
(address shifted left by 2, start bit 0), then poll up to 10,000 times.
-/
def eepromRead (address : Nat) (resp : Nat → Nat) : Nat × Nat :=
  let _cmd := (address <<< 2) ||| 1
  eepromReadPoll resp 0 10000

/--
The poll loop of `PhyRead` (`E1000E.cpp`, lines 199–208): `resp i` is the
i-th `ReadReg(REG_MDIC)` value.  On ready-with-error the read returns 0;
on ready it returns the low 16 data bits.  Also returns the number of poll
iterations performed (instrumentation).
-/
def phyReadPoll (resp : Nat → Nat) (i : Nat) : Nat → Nat × Nat
  | 0 => (0, 0)
  | fuel + 1 =>
    let mdic := resp i
    if mdic &&& MDIC_READY ≠ 0 then
      if mdic &&& MDIC_ERROR ≠ 0 then (0, 1)
      else (mdic &&& MDIC_DATA_MASK, 1)
    else
      let r := phyReadPoll resp (i + 1) fuel
      (r.1, r.2 + 1)

/--
`PhyRead` (`E1000E.cpp`, lines 191–212): write the MDIC command word
(register index, internal PHY address 1, read opcode), then poll up to
200,000 times.
-/
def phyRead (phyReg : Nat) (resp : Nat → Nat) : Nat × Nat :=
  let _mdic := ((phyReg &&& 0x1F) <<< MDIC_REG_SHIFT) ||| (1 <<< MDIC_PHY_SHIFT) ||| MDIC_OP_READ
  phyReadPoll resp 0 200000

/--
`ReadMacAddress` (`E1000E.cpp`, lines 291–327).  RAL/RAH behave like
memory and are read from / written to the register file; the EEPROM data
register does not, so EEPROM reads take a per-address mock response stream
`eresp` (only used when RAL reads as zero).  Resolves the six MAC bytes
and always writes them back to RAL/RAH with the Address-Valid bit
(bit 31 of RAH) set.
-/
def readMacAddress (s : DriverState) (eresp : Nat → Nat → Nat) :
    (List Nat) × DriverState :=
  let ral := s.regs REG_RAL
  let rah := s.regs REG_RAH
  let mac : List Nat :=
    if ral ≠ 0 then
      [ral % 256, (ral >>> 8) % 256, (ral >>> 16) % 256, (ral >>> 24) % 256,
       rah % 256, (rah >>> 8) % 256]
    else
      let word0 := (eepromRead 0 (eresp 0)).1
      let word1 := (eepromRead 1 (eresp 1)).1
      let word2 := (eepromRead 2 (eresp 2)).1
      [word0 % 256, (word0 >>> 8) % 256, word1 % 256, (word1 >>> 8) % 256,
       word2 % 256, (word2 >>> 8) % 256]
  let ralNew := mac.getD 0 0 ||| (mac.getD 1 0 <<< 8) ||| (mac.getD 2 0 <<< 16) |||
    (mac.getD 3 0 <<< 24)
  let rahNew := mac.getD 4 0 ||| (mac.getD 5 0 <<< 8) ||| (1 <<< 31)
  (mac,
    { s with
      regs := fun r =>
        if r = REG_RAH then rahNew
        else if r = REG_RAL then ralNew
        else s.regs r,
      writeLog := s.writeLog ++ [(REG_RAL, ralNew), (REG_RAH, rahNew)] })

/--
Result of one semaphore-acquisition stage: success flag, device state
after the stage, number of loop iterations performed, and the register
writes issued (chronological), so that "no write occurred" and "the last
write cleared bit b" are expressible.
-/
structure LoopOut (σ : Type) where
  ok : Bool
  dev : σ
  iters : Nat
  writes : List (Nat × Nat)
deriving DecidableEq

/--
Stage 1 of `AcquireSwFwSync` (`E1000E.cpp`, lines 144–154): up to `fuel`
(2000 in the source) iterations of read SWSM; if SMBI is clear, set it by
read-modify-write and verify by reading back; on verified acquisition stop,
otherwise keep retrying.  The semaphore registers are genuinely shared with
firmware, so the device is an abstract state machine `(σ, read, write)`
with pure reads.
-/
def smbiAcquireLoop {σ : Type} (read : σ → Nat → Nat) (write : σ → Nat → Nat → σ) :
    Nat → σ → LoopOut σ
  | 0, d => ⟨false, d, 0, []⟩
  | fuel + 1, d =>
    let swsm := read d REG_SWSM
    if swsm &&& SWSM_SMBI = 0 then
      let d1 := write d REG_SWSM (swsm ||| SWSM_SMBI)
      if read d1 REG_SWSM &&& SWSM_SMBI ≠ 0 then
        ⟨true, d1, 1, [(REG_SWSM, swsm ||| SWSM_SMBI)]⟩
      else
        let r := smbiAcquireLoop read write fuel d1
        ⟨r.ok, r.dev, r.iters + 1, (REG_SWSM, swsm ||| SWSM_SMBI) :: r.writes⟩
    else
      let r := smbiAcquireLoop read write fuel d
      ⟨r.ok, r.dev, r.iters + 1, r.writes⟩

/--
Stage 2 of `AcquireSwFwSync` (`E1000E.cpp`, lines 162–170): the same
read-modify-write-verify retry loop on `EXTCNF_CTRL.SWFLAG`.
-/
def swflagAcquireLoop {σ : Type} (read : σ → Nat → Nat) (write : σ → Nat → Nat → σ) :
    Nat → σ → LoopOut σ
  | 0, d => ⟨false, d, 0, []⟩
  | fuel + 1, d =>
    let extcnf := read d REG_EXTCNF_CTRL
    if extcnf &&& EXTCNF_CTRL_SWFLAG = 0 then
      let d1 := write d REG_EXTCNF_CTRL (extcnf ||| EXTCNF_CTRL_SWFLAG)
      if read d1 REG_EXTCNF_CTRL &&& EXTCNF_CTRL_SWFLAG ≠ 0 then
        ⟨true, d1, 1, [(REG_EXTCNF_CTRL, extcnf ||| EXTCNF_CTRL_SWFLAG)]⟩
      else
        let r := swflagAcquireLoop read write fuel d1
        ⟨r.ok, r.dev, r.iters + 1, (REG_EXTCNF_CTRL, extcnf ||| EXTCNF_CTRL_SWFLAG) :: r.writes⟩
    else
      let r := swflagAcquireLoop read write fuel d
      ⟨r.ok, r.dev, r.iters + 1, r.writes⟩

/-- Result of `AcquireSwFwSync` / `ReleaseSwFwSync`: outcome, device, writes. -/
structure AcqOut (σ : Type) where
  ok : Bool
  dev : σ
  writes : List (Nat × Nat)
deriving DecidableEq

/--
`AcquireSwFwSync` (`E1000E.cpp`, lines 142–177): run stage 1 with fuel
2000; on failure warn and return false.  Then stage 2 with fuel 2000; on
its failure, release SMBI again (`swsm & ~SWSM_SMBI`, i.e. the low bit
cleared through the 32-bit mask `0xFFFFFFFE`), warn and return false.
Both failures are non-fatal warnings: the function always returns.
-/
def acquireSwFwSync {σ : Type} (read : σ → Nat → Nat) (write : σ → Nat → Nat → σ)
    (d : σ) : AcqOut σ :=
  let r1 := smbiAcquireLoop read write 2000 d
  if r1.ok = false then ⟨false, r1.dev, r1.writes⟩
  else
    let r2 := swflagAcquireLoop read write 2000 r1.dev
    if r2.ok then ⟨true, r2.dev, r1.writes ++ r2.writes⟩
    else
      let swsm := read r2.dev REG_SWSM
      ⟨false, write r2.dev REG_SWSM (swsm &&& 0xFFFFFFFE),
        r1.writes ++ r2.writes ++ [(REG_SWSM, swsm &&& 0xFFFFFFFE)]⟩

/--
`ReleaseSwFwSync` (`E1000E.cpp`, lines 179–185): unconditionally clear
SWFLAG (`extcnf & ~EXTCNF_CTRL_SWFLAG`, 32-bit mask `0xFFFFFFDF`) and then
SMBI (mask `0xFFFFFFFE`), regardless of whether either bit was held.
-/
def releaseSwFwSync {σ : Type} (read : σ → Nat → Nat) (write : σ → Nat → Nat → σ)
    (d : σ) : σ × List (Nat × Nat) :=
  let extcnf := read d REG_EXTCNF_CTRL
  let d1 := write d REG_EXTCNF_CTRL (extcnf &&& 0xFFFFFFDF)
  let swsm := read d1 REG_SWSM
  let d2 := write d1 REG_SWSM (swsm &&& 0xFFFFFFFE)
  (d2, [(REG_EXTCNF_CTRL, extcnf &&& 0xFFFFFFDF), (REG_SWSM, swsm &&& 0xFFFFFFFE)])

/-- The reset-completion poll (`E1000E.cpp`, lines 606–610): reads only. -/
def resetPollLoop {σ : Type} (read : σ → Nat → Nat) : Nat → σ → σ
  | 0, d => d
  | fuel + 1, d =>
    if read d REG_CTRL &&& CTRL_RST = 0 then d
    else resetPollLoop read fuel d

/--
Steps 1–5 of the ICH/PCH reset sequence inside `Initialize`
(`E1000E.cpp`, lines 586–617): mask interrupts and flush ICR, acquire the
firmware semaphore best-effort (its Boolean result is discarded), set the
device-reset bit, wait (the settling loop touches no register), poll up to
10,000 iterations for the reset bit to self-clear, release the semaphore,
and mask interrupts again.  Returns the device and the chronological write
trace: the sequence runs to its end regardless of the arbitration outcome.
-/
def resetSequence {σ : Type} (read : σ → Nat → Nat) (write : σ → Nat → Nat → σ)
    (d : σ) : σ × List (Nat × Nat) :=
  let d1 := write d REG_IMC 0xFFFFFFFF
  let acq := acquireSwFwSync read write d1
  let ctrl := read acq.dev REG_CTRL
  let d2 := write acq.dev REG_CTRL (ctrl ||| CTRL_RST)
  let d3 := resetPollLoop read 10000 d2
  let rel := releaseSwFwSync read write d3
  let d4 := write rel.1 REG_IMC 0xFFFFFFFF
  (d4, [(REG_IMC, 0xFFFFFFFF)] ++ acq.writes ++ [(REG_CTRL, ctrl ||| CTRL_RST)] ++
    rel.2 ++ [(REG_IMC, 0xFFFFFFFF)])

/-! ### Sample states for concrete evaluation -/

/-- An all-zero RX descriptor. -/
def zeroRxDesc : RxDescriptor := ⟨0, 0, 0, 0, 0, 0⟩

/-- An all-zero TX descriptor. -/
def zeroTxDesc : TxDescriptor := ⟨0, 0, 0, 0, 0, 0, 0⟩

/-- A blank driver state (the singleton before `Initialize` runs). -/
def blankState : DriverState :=
  { initialized := false, pollingMode := false,
    rxDescs := fun _ => zeroRxDesc, txDescs := fun _ => zeroTxDesc,
    rxBuffers := fun _ => 0, txBuffers := fun _ => [],
    rxBuffersPhys := fun _ => 0, txBuffersPhys := fun _ => 0,
    rxTail := 0, txTail := 0, rxPacketCount := 0, txPacketCount := 0,
    hasRxCallback := false, regs := fun _ => 0, writeLog := [], callbackLog := [],
    polling := false }

/-- An initialized state whose TX ring is entirely available (all done bits set). -/
def txReadyState : DriverState :=
  { blankState with
    initialized := true,
    txDescs := fun _ => { zeroTxDesc with Status := TXSTA_DD },
    txBuffersPhys := fun i => 0x100000 + 0x1000 * i }

/-! ### Claim theorems -/

/--
C1: For every call to SendPacket with the driver initialized, data non-null,
1 ≤ length ≤ 1518, and the descriptor at the current TX tail having its done
bit set, SendPacket returns true, copies `length` bytes of the payload into
that slot's pre-allocated buffer, sets the descriptor's Length to `length`
and Command to end-of-packet | insert-FCS | report-status, clears the
descriptor's done (status) bit, and writes `(oldTail + 1) % 32` to the TX
doorbell register TDT, which also becomes the new tail index.
-/
theorem sendPacket_valid_send (s : DriverState) (d : List Nat) (len : Nat)
    (hinit : s.initialized = true) (hlen1 : 1 ≤ len) (hlen2 : len ≤ 1518)
    (hdd : (s.txDescs s.txTail).Status &&& TXSTA_DD ≠ 0) :
    (sendPacket s (some d) len).1 = true ∧
    ((sendPacket s (some d) len).2).txBuffers s.txTail =
      d.take len ++ (s.txBuffers s.txTail).drop len ∧
    ((sendPacket s (some d) len).2).txDescs s.txTail =
      { s.txDescs s.txTail with
        BufferAddress := s.txBuffersPhys s.txTail, Length := len,
        Command := TXCMD_EOP ||| TXCMD_IFCS ||| TXCMD_RS, Status := 0 } ∧
    ((sendPacket s (some d) len).2).writeLog =
      s.writeLog ++ [(REG_TDT, (s.txTail + 1) % 32)] ∧
    ((sendPacket s (some d) len).2).regs REG_TDT = (s.txTail + 1) % 32 ∧
    ((sendPacket s (some d) len).2).txTail = (s.txTail + 1) % 32 := by
  have hcond : ¬(s.initialized = false ∨ (some d : Option (List Nat)) = none ∨
      len = 0 ∨ len > 1518) := by
    simp [hinit]
    omega
  unfold sendPacket
  rw [if_neg hcond, if_neg hdd]
  refine ⟨rfl, ?_, ?_, ?_, ?_, ?_⟩ <;> simp [TX_DESC_COUNT]

/-- Witness for `sendPacket_valid_send` at a concrete state and payload. -/
theorem sendPacket_valid_send_witness :
    (txReadyState.initialized = true ∧ 1 ≤ 4 ∧ 4 ≤ 1518 ∧
      (txReadyState.txDescs txReadyState.txTail).Status &&& TXSTA_DD ≠ 0) ∧
    (sendPacket txReadyState (some [1, 2, 3, 4]) 4).1 = true ∧
    ((sendPacket txReadyState (some [1, 2, 3, 4]) 4).2).regs REG_TDT = 1 :=
  ⟨⟨rfl, by decide, by decide, by decide⟩,
   (sendPacket_valid_send txReadyState [1, 2, 3, 4] 4 rfl (by decide) (by decide)
      (by decide)).1,
   by
    have h := (sendPacket_valid_send txReadyState [1, 2, 3, 4] 4 rfl (by decide)
      (by decide) (by decide)).2.2.2.2.1
    simpa using h⟩

/--
C2: For every call to SendPacket in which the driver is uninitialized, or
data is null, or length is 0, or length exceeds 1518, or the descriptor at
the current TX tail has its done bit clear (ring full), SendPacket returns
false and all ring state is unchanged: the returned state is literally the
input state, so no descriptor field, packet buffer, tail index, packet
counter, or register write-log entry changes.
-/
theorem sendPacket_reject (s : DriverState) (data : Option (List Nat)) (len : Nat)
    (h : s.initialized = false ∨ data = none ∨ len = 0 ∨ len > 1518 ∨
      (s.txDescs s.txTail).Status &&& TXSTA_DD = 0) :
    sendPacket s data len = (false, s) := by
  unfold sendPacket
  by_cases hc : s.initialized = false ∨ data = none ∨ len = 0 ∨ len > 1518
  · rw [if_pos hc]
  · rw [if_neg hc]
    have hdd : (s.txDescs s.txTail).Status &&& TXSTA_DD = 0 := by tauto
    rw [if_pos hdd]

/-- Witness for `sendPacket_reject`: a null send on the blank state. -/
theorem sendPacket_reject_witness :
    (blankState.initialized = false ∨ (none : Option (List Nat)) = none ∨
      (7 : Nat) = 0 ∨ (7 : Nat) > 1518 ∨
      (blankState.txDescs blankState.txTail).Status &&& TXSTA_DD = 0) ∧
    sendPacket blankState none 7 = (false, blankState) :=
  ⟨Or.inl rfl, sendPacket_reject blankState none 7 (Or.inl rfl)⟩

/--
C4: Whenever the poll path is re-entered while the in-progress flag is
already set, the nested call returns immediately and changes nothing: both
`PollRx` and the public `Poll` return the input state unchanged, so the RX
tail index, ring contents, RX packet counter, write log and RX doorbell are
exactly as the outer drain left them.
-/
theorem poll_reentrancy_noop (s : DriverState) (h : s.polling = true) :
    pollRx s = s ∧ poll s = s := by
  have hp : pollRx s = s := by
    unfold pollRx
    rw [if_pos h]
  refine ⟨hp, ?_⟩
  unfold poll
  by_cases hi : s.initialized = false
  · rw [if_pos hi]
  · rw [if_neg hi]
    exact hp

/-- Witness for `poll_reentrancy_noop` at a state with the flag set. -/
theorem poll_reentrancy_noop_witness :
    ({ txReadyState with polling := true }).polling = true ∧
    pollRx { txReadyState with polling := true } = { txReadyState with polling := true } :=
  ⟨rfl, (poll_reentrancy_noop { txReadyState with polling := true } rfl).1⟩

/--
C10: For every call to Poll made while the driver is not initialized, Poll
returns immediately with the state unchanged: no register is read or
written (the write log is untouched) and the descriptor rings are never
accessed, because the initialized-flag guard short-circuits before the
ring-draining branch.
-/
theorem poll_uninitialized_noop (s : DriverState) (h : s.initialized = false) :
    poll s = s := by
  unfold poll
  rw [if_pos h]

/-- Witness for `poll_uninitialized_noop` on the blank (pre-init) state. -/
theorem poll_uninitialized_noop_witness :
    blankState.initialized = false ∧ poll blankState = blankState :=
  ⟨rfl, poll_uninitialized_noop blankState rfl⟩

/-- A PHY poll that never sees the ready bit spins for its whole fuel and yields 0. -/
lemma phyReadPoll_timeout (resp : Nat → Nat)
    (h : ∀ i, resp i &&& MDIC_READY = 0) :
    ∀ fuel i, phyReadPoll resp i fuel = (0, fuel) := by
  intro fuel
  induction fuel with
  | zero => intro i; rfl
  | succ f ih =>
    intro i
    unfold phyReadPoll
    simp [h i, ih (i + 1)]

/-- An EEPROM poll that never sees the done bit spins for its whole fuel and yields 0. -/
lemma eepromReadPoll_timeout (resp : Nat → Nat)
    (h : ∀ i, resp i &&& 2 = 0) :
    ∀ fuel i, eepromReadPoll resp i fuel = (0, fuel) := by
  intro fuel
  induction fuel with
  | zero => intro i; rfl
  | succ f ih =>
    intro i
    unfold eepromReadPoll
    simp [h i, ih (i + 1)]

/-- If the first ready response also carries the error bit, the PHY poll yields 0. -/
lemma phyReadPoll_error (resp : Nat → Nat) :
    ∀ (m fuel i : Nat), m < fuel →
    (∀ j, j < m → resp (i + j) &&& MDIC_READY = 0) →
    resp (i + m) &&& MDIC_READY ≠ 0 → resp (i + m) &&& MDIC_ERROR ≠ 0 →
    phyReadPoll resp i fuel = (0, m + 1) := by
  intro m
  induction m with
  | zero =>
    intro fuel i hfuel hpre hrdy herr
    match fuel, hfuel with
    | f + 1, _ =>
      unfold phyReadPoll
      simp only [Nat.add_zero] at hrdy herr
      simp [hrdy, herr]
  | succ n ih =>
    intro fuel i hfuel hpre hrdy herr
    match fuel, hfuel with
    | f + 1, hfuel =>
      unfold phyReadPoll
      have h0 : resp i &&& MDIC_READY = 0 := by
        have := hpre 0 (Nat.succ_pos n)
        simpa using this
      have hrec : phyReadPoll resp (i + 1) f = (0, n + 1) := by
        refine ih f (i + 1) (by omega) ?_ ?_ ?_
        · intro j hj
          have := hpre (j + 1) (by omega)
          have hidx : i + (j + 1) = i + 1 + j := by omega
          rwa [hidx] at this
        · have hidx : i + (n + 1) = i + 1 + n := by omega
          rwa [hidx] at hrdy
        · have hidx : i + (n + 1) = i + 1 + n := by omega
          rwa [hidx] at herr
      simp [h0, hrec]

/--
C9: For every PhyRead (respectively EepromRead) issued against a device
whose ready (respectively done) bit never becomes set, the operation
performs exactly 200,000 (respectively 10,000) polling iterations and then
returns 0 rather than looping forever; PhyRead also returns 0 when the
ready bit sets together with the error bit.
-/
theorem phy_eeprom_poll_ceiling (phyReg address : Nat) (resp eresp presp : Nat → Nat)
    (hphy : ∀ i, resp i &&& MDIC_READY = 0)
    (hee : ∀ i, eresp i &&& 2 = 0)
    (k : Nat) (hk : k < 200000)
    (hpre : ∀ j, j < k → presp j &&& MDIC_READY = 0)
    (hrdy : presp k &&& MDIC_READY ≠ 0) (herr : presp k &&& MDIC_ERROR ≠ 0) :
    phyRead phyReg resp = (0, 200000) ∧
    eepromRead address eresp = (0, 10000) ∧
    phyRead phyReg presp = (0, k + 1) := by
  refine ⟨?_, ?_, ?_⟩
  · unfold phyRead
    exact phyReadPoll_timeout resp hphy 200000 0
  · unfold eepromRead
    exact eepromReadPoll_timeout eresp hee 10000 0
  · unfold phyRead
    refine phyReadPoll_error presp k 200000 0 hk ?_ ?_ ?_
    · intro j hj
      simpa using hpre j hj
    · simpa using hrdy
    · simpa using herr

/-- Witness for `phy_eeprom_poll_ceiling` with mock never-ready and error devices. -/
theorem phy_eeprom_poll_ceiling_witness :
    ((∀ i : Nat, (fun _ : Nat => 0) i &&& MDIC_READY = 0) ∧
     (∀ i : Nat, (fun _ : Nat => 0) i &&& 2 = 0) ∧
     (0 : Nat) < 200000 ∧
     (fun _ : Nat => MDIC_READY ||| MDIC_ERROR) 0 &&& MDIC_READY ≠ 0 ∧
     (fun _ : Nat => MDIC_READY ||| MDIC_ERROR) 0 &&& MDIC_ERROR ≠ 0) ∧
    phyRead 1 (fun _ => 0) = (0, 200000) ∧
    eepromRead 0 (fun _ => 0) = (0, 10000) ∧
    phyRead 1 (fun _ => MDIC_READY ||| MDIC_ERROR) = (0, 0 + 1) := by
  have h := phy_eeprom_poll_ceiling 1 0 (fun _ => 0) (fun _ => 0)
    (fun _ => MDIC_READY ||| MDIC_ERROR)
    (fun _ => by simp) (fun _ => by simp) 0 (by omega)
    (fun j hj => by omega) (by decide) (by decide)
  exact ⟨⟨fun _ => by simp, fun _ => by simp, by omega, by decide, by decide⟩, h⟩

/--
C5: MAC resolution reads RAL and RAH; if RAL is non-zero, the resolved
6-byte MAC address is bytes 0–3 of RAL (least significant byte first)
followed by bytes 0–1 of RAH; if RAL is zero, it is EEPROM words 0, 1, 2,
each word contributing its low byte then its high byte; in both cases RAL
and RAH are afterwards rewritten with exactly those six bytes and the
Address-Valid bit (bit 31 of RAH) set.
-/
theorem readMacAddress_resolution (s : DriverState) (eresp : Nat → Nat → Nat) :
    ((s.regs REG_RAL ≠ 0 →
      (readMacAddress s eresp).1 =
        [s.regs REG_RAL % 256, (s.regs REG_RAL >>> 8) % 256,
         (s.regs REG_RAL >>> 16) % 256, (s.regs REG_RAL >>> 24) % 256,
         s.regs REG_RAH % 256, (s.regs REG_RAH >>> 8) % 256]) ∧
     (s.regs REG_RAL = 0 →
      (readMacAddress s eresp).1 =
        [(eepromRead 0 (eresp 0)).1 % 256, ((eepromRead 0 (eresp 0)).1 >>> 8) % 256,
         (eepromRead 1 (eresp 1)).1 % 256, ((eepromRead 1 (eresp 1)).1 >>> 8) % 256,
         (eepromRead 2 (eresp 2)).1 % 256, ((eepromRead 2 (eresp 2)).1 >>> 8) % 256])) ∧
    ((readMacAddress s eresp).2).regs REG_RAL =
      ((readMacAddress s eresp).1.getD 0 0 |||
       ((readMacAddress s eresp).1.getD 1 0 <<< 8) |||
       ((readMacAddress s eresp).1.getD 2 0 <<< 16) |||
       ((readMacAddress s eresp).1.getD 3 0 <<< 24)) ∧
    ((readMacAddress s eresp).2).regs REG_RAH =
      ((readMacAddress s eresp).1.getD 4 0 |||
       ((readMacAddress s eresp).1.getD 5 0 <<< 8) ||| (1 <<< 31)) := by
  refine ⟨⟨?_, ?_⟩, ?_, ?_⟩
  · intro h
    unfold readMacAddress
    simp [h]
  · intro h
    unfold readMacAddress
    simp [h]
  · unfold readMacAddress
    by_cases h : s.regs REG_RAL ≠ 0 <;> simp [h, REG_RAL, REG_RAH]
  · unfold readMacAddress
    by_cases h : s.regs REG_RAL ≠ 0 <;> simp [h, REG_RAL, REG_RAH]

/-- A state whose RAL/RAH registers are pre-programmed non-zero. -/
def ralProgrammedState : DriverState :=
  { blankState with
    regs := fun r => if r = REG_RAL then 0x44332211 else if r = REG_RAH then 0x6655 else 0 }

/-- A mock EEPROM device: address `a` answers `0xA0A0 + a` with the done bit set. -/
def mockEepromResp : Nat → Nat → Nat :=
  fun a _ => ((0xA0A0 + a) <<< 16) ||| 2

/-- Witness for `readMacAddress_resolution`: both resolution sources exercised. -/
theorem readMacAddress_resolution_witness :
    (ralProgrammedState.regs REG_RAL ≠ 0 ∧
      (readMacAddress ralProgrammedState mockEepromResp).1 =
        [0x11, 0x22, 0x33, 0x44, 0x55, 0x66]) ∧
    (blankState.regs REG_RAL = 0 ∧
      (readMacAddress blankState mockEepromResp).1 =
        [0xA0, 0xA0, 0xA1, 0xA0, 0xA2, 0xA0]) := by
  constructor
  · constructor
    · decide
    · have h := (readMacAddress_resolution ralProgrammedState mockEepromResp).1.1 (by decide)
      rw [h]
      decide
  · constructor
    · decide
    · have h := (readMacAddress_resolution blankState mockEepromResp).1.2 (by decide)
      rw [h]
      decide

/-- Clearing bits through a mask keeps the masked-out bits clear. -/
lemma land_mask_clears (x m b : Nat) (hmb : m &&& b = 0) : (x &&& m) &&& b = 0 := by
  rw [Nat.land_assoc, hmb]
  simp

/-- Each semaphore stage performs at most its fuel's worth of iterations. -/
lemma smbiAcquireLoop_iters_le {σ : Type} (read : σ → Nat → Nat)
    (write : σ → Nat → Nat → σ) :
    ∀ fuel (d : σ), (smbiAcquireLoop read write fuel d).iters ≤ fuel := by
  intro fuel
  induction fuel with
  | zero => intro d; simp [smbiAcquireLoop]
  | succ f ih =>
    intro d
    unfold smbiAcquireLoop
    dsimp only
    split
    · split
      · simp
      · simpa using ih _
    · simpa using ih _

/-- Each semaphore stage performs at most its fuel's worth of iterations. -/
lemma swflagAcquireLoop_iters_le {σ : Type} (read : σ → Nat → Nat)
    (write : σ → Nat → Nat → σ) :
    ∀ fuel (d : σ), (swflagAcquireLoop read write fuel d).iters ≤ fuel := by
  intro fuel
  induction fuel with
  | zero => intro d; simp [swflagAcquireLoop]
  | succ f ih =>
    intro d
    unfold swflagAcquireLoop
    dsimp only
    split
    · split
      · simp
      · simpa using ih _
    · simpa using ih _

/--
Against a device on which SMBI always reads as held, stage 1 exhausts its
entire fuel, writes nothing, and fails.
-/
lemma smbiAcquireLoop_blocked {σ : Type} (read : σ → Nat → Nat)
    (write : σ → Nat → Nat → σ)
    (h : ∀ d' : σ, read d' REG_SWSM &&& SWSM_SMBI ≠ 0) :
    ∀ fuel (d : σ), smbiAcquireLoop read write fuel d = ⟨false, d, fuel, []⟩ := by
  intro fuel
  induction fuel with
  | zero => intro d; rfl
  | succ f ih =>
    intro d
    unfold smbiAcquireLoop
    rw [if_neg (h d)]
    simp [ih d]

/--
Against a device on which SWFLAG always reads as held, stage 2 exhausts its
entire fuel, writes nothing, and fails.
-/
lemma swflagAcquireLoop_blocked {σ : Type} (read : σ → Nat → Nat)
    (write : σ → Nat → Nat → σ)
    (h : ∀ d' : σ, read d' REG_EXTCNF_CTRL &&& EXTCNF_CTRL_SWFLAG ≠ 0) :
    ∀ fuel (d : σ), swflagAcquireLoop read write fuel d = ⟨false, d, fuel, []⟩ := by
  intro fuel
  induction fuel with
  | zero => intro d; rfl
  | succ f ih =>
    intro d
    unfold swflagAcquireLoop
    rw [if_neg (h d)]
    simp [ih d]

/--
C8: Firmware-semaphore acquisition retries each of its two stages up to
2000 iterations; whenever the SWFLAG stage fails after the SMBI stage
succeeded, SMBI is cleared again (the final register write clears the SMBI
bit) before `AcquireSwFwSync` returns; failure at either stage only
produces a warning and never stops bring-up (the acquisition returns
`false`, and the reset sequence that invokes it always runs through to its
final interrupt-mask write); and `ReleaseSwFwSync` unconditionally clears
SWFLAG first and then SMBI, regardless of whether either bit was held.
-/
theorem swfw_sync_spec {σ : Type} (read : σ → Nat → Nat) (write : σ → Nat → Nat → σ) :
    (∀ d : σ, (smbiAcquireLoop read write 2000 d).iters ≤ 2000 ∧
      (swflagAcquireLoop read write 2000 d).iters ≤ 2000) ∧
    ((∀ d' : σ, read d' REG_SWSM &&& SWSM_SMBI ≠ 0) →
      ∀ d : σ, acquireSwFwSync read write d = ⟨false, d, []⟩ ∧
        (smbiAcquireLoop read write 2000 d).iters = 2000) ∧
    ((∀ d' : σ, read d' REG_EXTCNF_CTRL &&& EXTCNF_CTRL_SWFLAG ≠ 0) →
      ∀ d : σ, (swflagAcquireLoop read write 2000 d).iters = 2000) ∧
    (∀ d : σ, (smbiAcquireLoop read write 2000 d).ok = true →
      (swflagAcquireLoop read write 2000 (smbiAcquireLoop read write 2000 d).dev).ok = false →
      (acquireSwFwSync read write d).ok = false ∧
      ∃ v, (acquireSwFwSync read write d).writes.getLast? = some (REG_SWSM, v) ∧
        v &&& SWSM_SMBI = 0) ∧
    (∀ d : σ, ∃ a b, (releaseSwFwSync read write d).2 =
        [(REG_EXTCNF_CTRL, a), (REG_SWSM, b)] ∧
      a &&& EXTCNF_CTRL_SWFLAG = 0 ∧ b &&& SWSM_SMBI = 0) ∧
    (∀ d : σ, ((resetSequence read write d).2).getLast? = some (REG_IMC, 0xFFFFFFFF)) := by
  refine ⟨?_, ?_, ?_, ?_, ?_, ?_⟩
  · intro d
    exact ⟨smbiAcquireLoop_iters_le read write 2000 d,
      swflagAcquireLoop_iters_le read write 2000 d⟩
  · intro h d
    rw [smbiAcquireLoop_blocked read write h 2000 d]
    constructor
    · unfold acquireSwFwSync
      rw [smbiAcquireLoop_blocked read write h 2000 d]
      rfl
    · rfl
  · intro h d
    rw [swflagAcquireLoop_blocked read write h 2000 d]
  · intro d h1 h2
    unfold acquireSwFwSync
    rw [if_neg (by simp [h1]), if_neg (by simp [h2])]
    refine ⟨rfl, read (swflagAcquireLoop read write 2000
      (smbiAcquireLoop read write 2000 d).dev).dev REG_SWSM &&& 0xFFFFFFFE, ?_, ?_⟩
    · simp only [AcqOut.writes]
      rw [List.getLast?_concat]
    · exact land_mask_clears _ _ _ (by decide)
  · intro d
    unfold releaseSwFwSync
    refine ⟨_, _, rfl, ?_, ?_⟩
    · exact land_mask_clears _ _ _ (by decide)
    · exact land_mask_clears _ _ _ (by decide)
  · intro d
    unfold resetSequence
    dsimp only
    rw [List.getLast?_concat]

/-- A mock device whose registers all read as all-ones (both semaphores stuck). -/
def allOnesRead : Unit → Nat → Nat := fun _ _ => 0xFFFFFFFF

/-- Writes on the `Unit` mock device are dropped. -/
def unitWrite : Unit → Nat → Nat → Unit := fun _ _ _ => ()

/--
A mock device on which SMBI is acquirable but SWFLAG is permanently held
by firmware: the Bool state records whether software holds SMBI.
-/
def smbiOnlyRead : Bool → Nat → Nat := fun b r =>
  if r = REG_SWSM then (if b then 1 else 0)
  else if r = REG_EXTCNF_CTRL then EXTCNF_CTRL_SWFLAG
  else 0

/-- Writes to SWSM set the Bool state from the written SMBI bit; others are dropped. -/
def smbiOnlyWrite : Bool → Nat → Nat → Bool := fun b r v =>
  if r = REG_SWSM then decide (v &&& 1 = 1) else b

/-- Witness for `swfw_sync_spec` on concrete mock devices. -/
theorem swfw_sync_spec_witness :
    ((∀ d' : Unit, allOnesRead d' REG_SWSM &&& SWSM_SMBI ≠ 0) ∧
     (∀ d' : Unit, allOnesRead d' REG_EXTCNF_CTRL &&& EXTCNF_CTRL_SWFLAG ≠ 0) ∧
     (smbiAcquireLoop smbiOnlyRead smbiOnlyWrite 2000 false).ok = true ∧
     (swflagAcquireLoop smbiOnlyRead smbiOnlyWrite 2000
       (smbiAcquireLoop smbiOnlyRead smbiOnlyWrite 2000 false).dev).ok = false) ∧
    acquireSwFwSync allOnesRead unitWrite () = ⟨false, (), []⟩ ∧
    (acquireSwFwSync smbiOnlyRead smbiOnlyWrite false).ok = false ∧
    ((resetSequence allOnesRead unitWrite ()).2).getLast? = some (REG_IMC, 0xFFFFFFFF) := by
  have hswsm : ∀ d' : Unit, allOnesRead d' REG_SWSM &&& SWSM_SMBI ≠ 0 := by
    intro d'
    cases d'
    decide
  have hext : ∀ d' : Bool, smbiOnlyRead d' REG_EXTCNF_CTRL &&& EXTCNF_CTRL_SWFLAG ≠ 0 := by
    intro d'
    cases d' <;> decide
  have hextU : ∀ d' : Unit, allOnesRead d' REG_EXTCNF_CTRL &&& EXTCNF_CTRL_SWFLAG ≠ 0 := by
    intro d'
    cases d'
    decide
  have hok : (smbiAcquireLoop smbiOnlyRead smbiOnlyWrite 2000 false).ok = true := by
    decide
  have hfail : (swflagAcquireLoop smbiOnlyRead smbiOnlyWrite 2000
      (smbiAcquireLoop smbiOnlyRead smbiOnlyWrite 2000 false).dev).ok = false := by
    rw [swflagAcquireLoop_blocked smbiOnlyRead smbiOnlyWrite hext 2000 _]
  refine ⟨⟨hswsm, hextU, hok, hfail⟩, ?_, ?_, ?_⟩
  · exact ((swfw_sync_spec allOnesRead unitWrite).2.1 hswsm ()).1
  · exact ((swfw_sync_spec smbiOnlyRead smbiOnlyWrite).2.2.2.1 false hok hfail).1
  · exact (swfw_sync_spec allOnesRead unitWrite).2.2.2.2.2 ()

/--
"Exactly k consecutive done descriptors" is only satisfiable for k < 32:
with k ≥ 32 the stop slot wraps onto one of the done slots.
-/
lemma drain_k_lt (t k : Nat) (s : DriverState)
    (hdone : ∀ i, i < k → (s.rxDescs ((t + 1 + i) % 32)).Status &&& RXSTA_DD ≠ 0)
    (hstop : (s.rxDescs ((t + 1 + k) % 32)).Status &&& RXSTA_DD = 0) : k < 32 := by
  by_contra h
  push_neg at h
  have hlt : k % 32 < k := by omega
  have hidx : (t + 1 + k % 32) % 32 = (t + 1 + k) % 32 := by omega
  have hd := hdone (k % 32) hlt
  rw [hidx] at hd
  exact hd hstop

/--
Exact behaviour of the shared RX drain loop: starting at tail `t` with
exactly `k` consecutive done descriptors after it, the loop drains exactly
those `k` slots in tail-successor order, logging one callback invocation
per slot with that slot's buffer pointer and recorded length, clearing each
drained descriptor's Status/Length/Errors, leaving all other descriptors
untouched, and leaving tail and RDT at `(t + k) % 32`.
-/
lemma rxDrainLoop_spec (k : Nat) :
    ∀ (fuel t : Nat) (s : DriverState),
    s.rxTail = t → t < 32 → k < 32 → k < fuel →
    (∀ i, i < k → (s.rxDescs ((t + 1 + i) % 32)).Status &&& RXSTA_DD ≠ 0) →
    (s.rxDescs ((t + 1 + k) % 32)).Status &&& RXSTA_DD = 0 →
    s.regs REG_RDT = t → s.hasRxCallback = true →
    (rxDrainLoop fuel s).rxTail = (t + k) % 32 ∧
    (rxDrainLoop fuel s).regs REG_RDT = (t + k) % 32 ∧
    (rxDrainLoop fuel s).callbackLog = s.callbackLog ++
      (List.range k).map (fun i =>
        (s.rxBuffers ((t + 1 + i) % 32), (s.rxDescs ((t + 1 + i) % 32)).Length)) ∧
    (rxDrainLoop fuel s).rxPacketCount = s.rxPacketCount + k ∧
    (∀ i, i < k → (rxDrainLoop fuel s).rxDescs ((t + 1 + i) % 32) =
      { s.rxDescs ((t + 1 + i) % 32) with Status := 0, Length := 0, Errors := 0 }) ∧
    (∀ j, (∀ i, i < k → j ≠ (t + 1 + i) % 32) →
      (rxDrainLoop fuel s).rxDescs j = s.rxDescs j) := by
  induction k with
  | zero =>
    intro fuel t s ht htlt hk hfuel hdone hstop hrdt hcb
    match fuel, hfuel with
    | f + 1, _ =>
      have hstop' : (s.rxDescs ((s.rxTail + 1) % RX_DESC_COUNT)).Status &&& RXSTA_DD = 0 := by
        rw [ht]
        simpa [RX_DESC_COUNT] using hstop
      have hloop : rxDrainLoop (f + 1) s = s := by
        unfold rxDrainLoop
        dsimp only
        rw [if_pos hstop']
      rw [hloop]
      refine ⟨?_, ?_, by simp, by simp, by omega, fun j _ => rfl⟩
      · omega
      · rw [hrdt]
        omega
  | succ n ih =>
    intro fuel t s ht htlt hk hfuel hdone hstop hrdt hcb
    match fuel, hfuel with
    | f + 1, hfuel =>
      have hidx0 : (s.rxTail + 1) % RX_DESC_COUNT = (t + 1) % 32 := by
        rw [ht]
        rfl
      have hd0 : (s.rxDescs ((t + 1) % 32)).Status &&& RXSTA_DD ≠ 0 := by
        have h := hdone 0 (by omega)
        simpa using h
      have hstep : rxDrainLoop (f + 1) s = rxDrainLoop f (rxDrainStep s ((t + 1) % 32)) := by
        conv_lhs => rw [rxDrainLoop]
        rw [hidx0, if_neg hd0]
      -- facts about the state after the first drain
      have f1tail : (rxDrainStep s ((t + 1) % 32)).rxTail = (t + 1) % 32 := by
        simp [rxDrainStep]
      have f1regs : (rxDrainStep s ((t + 1) % 32)).regs REG_RDT = (t + 1) % 32 := by
        simp [rxDrainStep]
      have f1cb : (rxDrainStep s ((t + 1) % 32)).hasRxCallback = true := by
        simpa [rxDrainStep] using hcb
      have f1log : (rxDrainStep s ((t + 1) % 32)).callbackLog =
          s.callbackLog ++ [(s.rxBuffers ((t + 1) % 32), (s.rxDescs ((t + 1) % 32)).Length)] := by
        simp [rxDrainStep, hcb]
      have f1count : (rxDrainStep s ((t + 1) % 32)).rxPacketCount = s.rxPacketCount + 1 := by
        simp [rxDrainStep]
      have f1buf : (rxDrainStep s ((t + 1) % 32)).rxBuffers = s.rxBuffers := rfl
      have f1desc0 : (rxDrainStep s ((t + 1) % 32)).rxDescs ((t + 1) % 32) =
          { s.rxDescs ((t + 1) % 32) with Status := 0, Length := 0, Errors := 0 } := by
        simp [rxDrainStep]
      have f1descs : ∀ j, j ≠ (t + 1) % 32 →
          (rxDrainStep s ((t + 1) % 32)).rxDescs j = s.rxDescs j := by
        intro j hj
        simp [rxDrainStep, hj]
      have hdone' : ∀ i, i < n →
          ((rxDrainStep s ((t + 1) % 32)).rxDescs (((t + 1) % 32 + 1 + i) % 32)).Status &&&
            RXSTA_DD ≠ 0 := by
        intro i hi
        have hidx : ((t + 1) % 32 + 1 + i) % 32 = (t + 1 + (i + 1)) % 32 := by omega
        have hne : (t + 1 + (i + 1)) % 32 ≠ (t + 1) % 32 := by omega
        rw [hidx, f1descs _ hne]
        exact hdone (i + 1) (by omega)
      have hstop' :
          ((rxDrainStep s ((t + 1) % 32)).rxDescs (((t + 1) % 32 + 1 + n) % 32)).Status &&&
            RXSTA_DD = 0 := by
        have hidx : ((t + 1) % 32 + 1 + n) % 32 = (t + 1 + (n + 1)) % 32 := by omega
        have hne : (t + 1 + (n + 1)) % 32 ≠ (t + 1) % 32 := by omega
        rw [hidx, f1descs _ hne]
        exact hstop
      obtain ⟨c1, c2, c3, c4, c5, c6⟩ :=
        ih f ((t + 1) % 32) (rxDrainStep s ((t + 1) % 32)) f1tail
          (Nat.mod_lt _ (by omega)) (by omega) (by omega) hdone' hstop' f1regs f1cb
      rw [hstep]
      refine ⟨?_, ?_, ?_, ?_, ?_, ?_⟩
      · rw [c1]
        omega
      · rw [c2]
        omega
      · rw [c3, f1log, List.range_succ_eq_map, List.map_cons, List.map_map,
          List.append_assoc, List.singleton_append]
        have hmap : (List.range n).map
            (fun i => ((rxDrainStep s ((t + 1) % 32)).rxBuffers (((t + 1) % 32 + 1 + i) % 32),
              ((rxDrainStep s ((t + 1) % 32)).rxDescs (((t + 1) % 32 + 1 + i) % 32)).Length)) =
            (List.range n).map
            ((fun i => (s.rxBuffers ((t + 1 + i) % 32), (s.rxDescs ((t + 1 + i) % 32)).Length)) ∘
              Nat.succ) := by
          refine List.map_congr_left ?_
          intro i hi
          have hi' : i < n := List.mem_range.mp hi
          have hidx : ((t + 1) % 32 + 1 + i) % 32 = (t + 1 + (i + 1)) % 32 := by omega
          have hne : (t + 1 + (i + 1)) % 32 ≠ (t + 1) % 32 := by omega
          rw [hidx, f1buf, f1descs _ hne]
          simp [Nat.succ_eq_add_one, Nat.add_assoc]
        rw [hmap]
      · rw [c4, f1count]
        omega
      · intro i hi
        match i with
        | 0 =>
          have hdist : ∀ i', i' < n → (t + 1) % 32 ≠ ((t + 1) % 32 + 1 + i') % 32 := by
            intro i' hi'
            omega
          have hfr := c6 ((t + 1) % 32) hdist
          have hidx : (t + 1 + 0) % 32 = (t + 1) % 32 := by omega
          rw [hidx, hfr, f1desc0]
        | m + 1 =>
          have hm : m < n := by omega
          have hidx : (t + 1 + (m + 1)) % 32 = ((t + 1) % 32 + 1 + m) % 32 := by omega
          have hne : ((t + 1) % 32 + 1 + m) % 32 ≠ (t + 1) % 32 := by omega
          rw [hidx]
          rw [c5 m hm, f1descs _ hne]
      · intro j hj
        have hj0 : j ≠ (t + 1) % 32 := by
          have h := hj 0 (by omega)
          simpa using h
        have hj' : ∀ i', i' < n → j ≠ ((t + 1) % 32 + 1 + i') % 32 := by
          intro i' hi'
          have h := hj (i' + 1) (by omega)
          have hidx : (t + 1 + (i' + 1)) % 32 = ((t + 1) % 32 + 1 + i') % 32 := by omega
          rwa [hidx] at h
        rw [c6 j hj', f1descs j hj0]

/--
C3: For every drain of the RX ring (interrupt dispatch with the RX-timer
cause set, or a non-nested Poll), if exactly k consecutive descriptors
after the current tail have their done bit set and the (k+1)-th does not,
the drain invokes the registered callback exactly k times, the i-th
invocation receiving the buffer pointer of slot (oldTail + i) mod 32 and
that descriptor's recorded Length; it clears each drained descriptor's
status, length, and errors fields, leaves every other descriptor alone
(terminating as soon as it inspects a descriptor whose done bit is clear),
and afterwards both the software tail index and the RX doorbell register
RDT equal (oldTail + k) mod 32, the drained descriptors having been
processed in strict tail-successor order (the callback log lists them in
ring order).
-/
theorem rx_drain_exact (s : DriverState) (t k icr : Nat)
    (ht : s.rxTail = t) (htlt : t < 32)
    (hdone : ∀ i, i < k → (s.rxDescs ((t + 1 + i) % 32)).Status &&& RXSTA_DD ≠ 0)
    (hstop : (s.rxDescs ((t + 1 + k) % 32)).Status &&& RXSTA_DD = 0)
    (hrdt : s.regs REG_RDT = t) (hcb : s.hasRxCallback = true)
    (hinit : s.initialized = true) (hpol : s.polling = false)
    (hicr : icr &&& ICR_RXT0 ≠ 0) :
    ((poll s).rxTail = (t + k) % 32 ∧
     (poll s).regs REG_RDT = (t + k) % 32 ∧
     (poll s).callbackLog = s.callbackLog ++ (List.range k).map (fun i =>
       (s.rxBuffers ((t + 1 + i) % 32), (s.rxDescs ((t + 1 + i) % 32)).Length)) ∧
     (poll s).rxPacketCount = s.rxPacketCount + k ∧
     (∀ i, i < k → (poll s).rxDescs ((t + 1 + i) % 32) =
       { s.rxDescs ((t + 1 + i) % 32) with Status := 0, Length := 0, Errors := 0 }) ∧
     (∀ j, (∀ i, i < k → j ≠ (t + 1 + i) % 32) → (poll s).rxDescs j = s.rxDescs j)) ∧
    ((handleInterrupt s icr).rxTail = (t + k) % 32 ∧
     (handleInterrupt s icr).regs REG_RDT = (t + k) % 32 ∧
     (handleInterrupt s icr).callbackLog = s.callbackLog ++ (List.range k).map (fun i =>
       (s.rxBuffers ((t + 1 + i) % 32), (s.rxDescs ((t + 1 + i) % 32)).Length)) ∧
     (handleInterrupt s icr).rxPacketCount = s.rxPacketCount + k ∧
     (∀ i, i < k → (handleInterrupt s icr).rxDescs ((t + 1 + i) % 32) =
       { s.rxDescs ((t + 1 + i) % 32) with Status := 0, Length := 0, Errors := 0 }) ∧
     (∀ j, (∀ i, i < k → j ≠ (t + 1 + i) % 32) →
       (handleInterrupt s icr).rxDescs j = s.rxDescs j)) := by
  have hk32 : k < 32 := drain_k_lt t k s hdone hstop
  have hfuel : k < RX_DESC_COUNT + 1 := by
    show k < 32 + 1
    omega
  constructor
  · have hpoll_eq : poll s =
        { rxDrainLoop (RX_DESC_COUNT + 1) { s with polling := true } with polling := false } := by
      unfold poll pollRx
      rw [if_neg (by simp [hinit]), if_neg (by simp [hpol])]
    obtain ⟨c1, c2, c3, c4, c5, c6⟩ :=
      rxDrainLoop_spec k (RX_DESC_COUNT + 1) t { s with polling := true }
        ht htlt hk32 hfuel hdone hstop hrdt hcb
    rw [hpoll_eq]
    exact ⟨c1, c2, c3, c4, c5, c6⟩
  · have hicr0 : icr ≠ 0 := by
      intro h0
      rw [h0] at hicr
      simp at hicr
    have hint_eq : handleInterrupt s icr = rxDrainLoop (RX_DESC_COUNT + 1) s := by
      unfold handleInterrupt
      rw [if_neg hicr0, if_pos hicr]
    rw [hint_eq]
    exact rxDrainLoop_spec k (RX_DESC_COUNT + 1) t s ht htlt hk32 hfuel hdone hstop hrdt hcb

/--
A concrete initialized RX state: tail 0, RDT 0, the descriptor at slot 1
done with length 64, everything else clear, callback registered.
-/
def rxSampleState : DriverState :=
  { blankState with
    initialized := true,
    hasRxCallback := true,
    rxDescs := fun i =>
      if i = 1 then { zeroRxDesc with Status := RXSTA_DD, Length := 64 } else zeroRxDesc,
    rxBuffers := fun i => 0x200000 + 0x1000 * i }

/-- Witness for `rx_drain_exact`: one completed descriptor drained by both paths. -/
theorem rx_drain_exact_witness :
    (rxSampleState.rxTail = 0 ∧ (0 : Nat) < 32 ∧
     (∀ i, i < 1 → (rxSampleState.rxDescs ((0 + 1 + i) % 32)).Status &&& RXSTA_DD ≠ 0) ∧
     (rxSampleState.rxDescs ((0 + 1 + 1) % 32)).Status &&& RXSTA_DD = 0 ∧
     rxSampleState.regs REG_RDT = 0 ∧ rxSampleState.hasRxCallback = true ∧
     rxSampleState.initialized = true ∧ rxSampleState.polling = false ∧
     ICR_RXT0 &&& ICR_RXT0 ≠ 0) ∧
    (poll rxSampleState).rxTail = (0 + 1) % 32 ∧
    (poll rxSampleState).callbackLog = rxSampleState.callbackLog ++
      (List.range 1).map (fun i =>
        (rxSampleState.rxBuffers ((0 + 1 + i) % 32),
         (rxSampleState.rxDescs ((0 + 1 + i) % 32)).Length)) ∧
    (handleInterrupt rxSampleState ICR_RXT0).regs REG_RDT = (0 + 1) % 32 := by
  have h := rx_drain_exact rxSampleState 0 1 ICR_RXT0 rfl (by decide)
    (by decide) (by decide) (by decide) rfl rfl rfl (by decide)
  exact ⟨⟨rfl, by decide, by decide, by decide, by decide, rfl, rfl, rfl, by decide⟩,
    h.1.1, h.1.2.2.1, h.2.2.1⟩

/--
Full characterization of a successful send: the returned flag is true and
the state update is exactly the source's success path.
-/
lemma sendPacket_success_eq (s : DriverState) (d : List Nat) (len : Nat)
    (hinit : s.initialized = true) (hlen1 : 1 ≤ len) (hlen2 : len ≤ 1518)
    (hdd : (s.txDescs s.txTail).Status &&& TXSTA_DD ≠ 0) :
    sendPacket s (some d) len =
      (true,
        { s with
          txBuffers := fun i =>
            if i = s.txTail then d.take len ++ (s.txBuffers s.txTail).drop len
            else s.txBuffers i,
          txDescs := fun i =>
            if i = s.txTail then
              { s.txDescs s.txTail with
                BufferAddress := s.txBuffersPhys s.txTail, Length := len,
                Command := TXCMD_EOP ||| TXCMD_IFCS ||| TXCMD_RS, Status := 0 }
            else s.txDescs i,
          txTail := (s.txTail + 1) % TX_DESC_COUNT,
          regs := fun r => if r = REG_TDT then (s.txTail + 1) % TX_DESC_COUNT else s.regs r,
          writeLog := s.writeLog ++ [(REG_TDT, (s.txTail + 1) % TX_DESC_COUNT)],
          txPacketCount := s.txPacketCount + 1 }) := by
  have hcond : ¬(s.initialized = false ∨ (some d : Option (List Nat)) = none ∨
      len = 0 ∨ len > 1518) := by
    simp [hinit]
    omega
  unfold sendPacket
  rw [if_neg hcond, if_neg hdd]
  rfl

/--
The TX-ring invariant after `j` successful sends from the freshly set-up
ring: the driver is initialized, the tail is `j % 32`, and exactly the
first `j` descriptors have their done bit cleared.
-/
def SendInv (j : Nat) (s : DriverState) : Prop :=
  s.initialized = true ∧ s.txTail = j % 32 ∧
  ∀ i, i < 32 → (s.txDescs i).Status = if i < j then 0 else TXSTA_DD

/-- The freshly set-up (and initialized) TX ring satisfies the invariant at 0. -/
lemma sendInv_zero (s0 : DriverState) (descPhys : Nat) (bufPhys : Nat → Nat) :
    SendInv 0 { setupTx s0 descPhys bufPhys with initialized := true } := by
  refine ⟨rfl, rfl, ?_⟩
  intro i hi
  have h2 : ({ setupTx s0 descPhys bufPhys with initialized := true } : DriverState).txDescs i =
      (if i < TX_DESC_COUNT then
        { BufferAddress := bufPhys i, Length := 0, ChecksumOffset := 0,
          Command := 0, Status := TXSTA_DD, ChecksumStart := 0, Special := 0 }
      else s0.txDescs i) := rfl
  rw [h2, if_pos (show i < TX_DESC_COUNT from hi)]
  simp

/-- A valid send under the invariant succeeds and advances the invariant. -/
lemma sendInv_step (j : Nat) (s : DriverState) (d : List Nat) (len : Nat)
    (hj : j < 32) (hinv : SendInv j s) (hlen1 : 1 ≤ len) (hlen2 : len ≤ 1518) :
    (sendPacket s (some d) len).1 = true ∧ SendInv (j + 1) (sendPacket s (some d) len).2 := by
  obtain ⟨hinit, htail, hst⟩ := hinv
  have htail' : s.txTail = j := by
    rw [htail]
    omega
  have hddv : (s.txDescs s.txTail).Status = TXSTA_DD := by
    rw [htail', hst j hj]
    simp
  have hdd : (s.txDescs s.txTail).Status &&& TXSTA_DD ≠ 0 := by
    rw [hddv]
    decide
  rw [sendPacket_success_eq s d len hinit hlen1 hlen2 hdd]
  refine ⟨rfl, hinit, ?_, ?_⟩
  · show (s.txTail + 1) % TX_DESC_COUNT = (j + 1) % 32
    rw [htail']
    rfl
  · intro i hi
    show (if i = s.txTail then _ else s.txDescs i).Status = _
    by_cases hij : i = s.txTail
    · rw [if_pos hij]
      have : i < j + 1 := by omega
      simp [this]
    · rw [if_neg hij]
      rw [hst i hi]
      have : i ≠ j := by
        rw [htail'] at hij
        exact hij
      by_cases hlt : i < j
      · have : i < j + 1 := by omega
        simp [hlt, this]
      · have : ¬(i < j + 1) := by omega
        simp [hlt, this]

/-- Once all 32 slots have been consumed, any further send fails unchanged. -/
lemma sendInv_full_reject (s : DriverState) (data : Option (List Nat)) (len : Nat)
    (hinv : SendInv 32 s) :
    sendPacket s data len = (false, s) := by
  obtain ⟨hinit, htail, hst⟩ := hinv
  have htail0 : s.txTail = 0 := by
    rw [htail]
  have hdd : (s.txDescs s.txTail).Status &&& TXSTA_DD = 0 := by
    rw [htail0, hst 0 (by omega)]
    simp
  unfold sendPacket
  by_cases hc : s.initialized = false ∨ data = none ∨ len = 0 ∨ len > 1518
  · rw [if_pos hc]
  · rw [if_neg hc, if_pos hdd]

/-- `runSends` distributes over list append. -/
lemma runSends_append (a : List (List Nat × Nat)) :
    ∀ (s : DriverState) (b : List (List Nat × Nat)),
    runSends s (a ++ b) =
      ((runSends s a).1 ++ (runSends (runSends s a).2 b).1,
       (runSends (runSends s a).2 b).2) := by
  induction a with
  | nil => intro s b; rfl
  | cons c cs ihc =>
    intro s b
    simp [runSends, ihc]

/-- Valid sends while slots remain all succeed and extend the invariant. -/
lemma runSends_inv (cs : List (List Nat × Nat)) :
    ∀ (j : Nat) (s : DriverState), SendInv j s → j + cs.length ≤ 32 →
    (∀ c ∈ cs, 1 ≤ c.2 ∧ c.2 ≤ 1518) →
    (runSends s cs).1 = List.replicate cs.length true ∧
    SendInv (j + cs.length) (runSends s cs).2 := by
  induction cs with
  | nil =>
    intro j s hinv hle hv
    exact ⟨rfl, by simpa using hinv⟩
  | cons c cs ihc =>
    intro j s hinv hle hv
    have hvc := hv c (List.mem_cons_self c cs)
    have hj : j < 32 := by
      simp at hle
      omega
    have hstep := sendInv_step j s c.1 c.2 hj hinv hvc.1 hvc.2
    have hle' : (j + 1) + cs.length ≤ 32 := by
      simp at hle
      omega
    have ihr := ihc (j + 1) (sendPacket s (some c.1) c.2).2 hstep.2 hle'
      (fun c' hc' => hv c' (List.mem_cons_of_mem c hc'))
    constructor
    · rw [show (c :: cs).length = cs.length + 1 from rfl, List.replicate_succ]
      simp [runSends, hstep.1, ihr.1]
    · have hidx : j + (c :: cs).length = (j + 1) + cs.length := by
        simp
        omega
      rw [hidx]
      exact ihr.2

/--
C6: After TX ring setup — which initializes the status of every one of the
32 descriptors to done and programs head = 0, tail = 0 — if hardware never
sets a done bit thereafter, then exactly the first 32 valid SendPacket
calls return true and the 33rd returns false (ring full): before the 33rd
call the tail has wrapped back to slot 0, whose done bit the first send
cleared.
-/
theorem tx_ring_first32_sends (s0 : DriverState) (descPhys : Nat) (bufPhys : Nat → Nat)
    (calls : List (List Nat × Nat)) (hlen : calls.length = 33)
    (hvalid : ∀ c ∈ calls, 1 ≤ c.2 ∧ c.2 ≤ 1518) :
    (runSends { setupTx s0 descPhys bufPhys with initialized := true } calls).1 =
      List.replicate 32 true ++ [false] ∧
    (runSends { setupTx s0 descPhys bufPhys with initialized := true }
      (calls.take 32)).2.txTail = 0 ∧
    ((runSends { setupTx s0 descPhys bufPhys with initialized := true }
      (calls.take 32)).2.txDescs 0).Status = 0 := by
  have htake_len : (calls.take 32).length = 32 := by
    rw [List.length_take]
    omega
  obtain ⟨r32, inv32⟩ := runSends_inv (calls.take 32) 0
    { setupTx s0 descPhys bufPhys with initialized := true }
    (sendInv_zero s0 descPhys bufPhys) (by omega)
    (fun c hc => hvalid c (List.take_subset 32 calls hc))
  rw [htake_len] at inv32
  have inv32' : SendInv 32
      (runSends { setupTx s0 descPhys bufPhys with initialized := true } (calls.take 32)).2 := by
    simpa using inv32
  obtain ⟨c33, hdrop⟩ : ∃ c, calls.drop 32 = [c] := by
    apply List.length_eq_one.mp
    rw [List.length_drop]
    omega
  have hsplit : calls = calls.take 32 ++ calls.drop 32 := (List.take_append_drop 32 calls).symm
  refine ⟨?_, ?_, ?_⟩
  · conv_lhs => rw [hsplit]
    rw [runSends_append, hdrop]
    have hfail := sendInv_full_reject
      (runSends { setupTx s0 descPhys bufPhys with initialized := true } (calls.take 32)).2
      (some c33.1) c33.2 inv32'
    simp [runSends, hfail, r32, htake_len]
  · have := inv32'.2.1
    simpa using this
  · have := inv32'.2.2 0 (by omega)
    simpa using this

/-- Witness for `tx_ring_first32_sends` with 33 one-byte sends. -/
theorem tx_ring_first32_sends_witness :
    ((List.replicate 33 ([(0 : Nat)], (1 : Nat))).length = 33 ∧
     (∀ c ∈ List.replicate 33 ([(0 : Nat)], (1 : Nat)), 1 ≤ c.2 ∧ c.2 ≤ 1518)) ∧
    (runSends { setupTx blankState 0 (fun i => 0x300000 + 0x1000 * i) with initialized := true }
      (List.replicate 33 ([(0 : Nat)], (1 : Nat)))).1 =
      List.replicate 32 true ++ [false] := by
  refine ⟨⟨by decide, ?_⟩, ?_⟩
  · intro c hc
    have := List.eq_of_mem_replicate hc
    rw [this]
    exact ⟨by omega, by omega⟩
  · refine (tx_ring_first32_sends blankState 0 (fun i => 0x300000 + 0x1000 * i)
      (List.replicate 33 ([(0 : Nat)], (1 : Nat))) (by decide) ?_).1
    intro c hc
    have := List.eq_of_mem_replicate hc
    rw [this]
    exact ⟨by omega, by omega⟩

/--
The ring invariant of §4.5: every descriptor's BufferAddress matches the
per-slot physical buffer address recorded at ring setup.
-/
def BufInv (s : DriverState) : Prop :=
  ∀ i, i < 32 → (s.rxDescs i).BufferAddress = s.rxBuffersPhys i ∧
    (s.txDescs i).BufferAddress = s.txBuffersPhys i

/-- A drain step never touches any descriptor's BufferAddress. -/
lemma rxDrainStep_bufAddr (s : DriverState) (n j : Nat) :
    ((rxDrainStep s n).rxDescs j).BufferAddress = (s.rxDescs j).BufferAddress := by
  by_cases h : j = n <;> simp [rxDrainStep, h]

/--
The drain loop never changes the physical-address tables, the TX ring, or
any RX descriptor's BufferAddress.
-/
lemma rxDrainLoop_frame : ∀ fuel (s : DriverState),
    (rxDrainLoop fuel s).rxBuffersPhys = s.rxBuffersPhys ∧
    (rxDrainLoop fuel s).txBuffersPhys = s.txBuffersPhys ∧
    (rxDrainLoop fuel s).txDescs = s.txDescs ∧
    (∀ j, ((rxDrainLoop fuel s).rxDescs j).BufferAddress = (s.rxDescs j).BufferAddress) := by
  intro fuel
  induction fuel with
  | zero => intro s; exact ⟨rfl, rfl, rfl, fun j => rfl⟩
  | succ f ih =>
    intro s
    unfold rxDrainLoop
    dsimp only
    split
    · exact ⟨rfl, rfl, rfl, fun j => rfl⟩
    · obtain ⟨p1, p2, p3, p4⟩ := ih (rxDrainStep s ((s.rxTail + 1) % RX_DESC_COUNT))
      refine ⟨p1, p2, p3, ?_⟩
      intro j
      rw [p4 j, rxDrainStep_bufAddr]

/-- `SendPacket` preserves the buffer-address invariant and the tables. -/
lemma sendPacket_bufInv (s : DriverState) (data : Option (List Nat)) (len : Nat)
    (h : BufInv s) :
    BufInv ((sendPacket s data len).2) ∧
    ((sendPacket s data len).2).rxBuffersPhys = s.rxBuffersPhys ∧
    ((sendPacket s data len).2).txBuffersPhys = s.txBuffersPhys := by
  unfold sendPacket
  dsimp only
  split
  · exact ⟨h, rfl, rfl⟩
  · split
    · exact ⟨h, rfl, rfl⟩
    · refine ⟨?_, rfl, rfl⟩
      intro i hi
      refine ⟨(h i hi).1, ?_⟩
      show (if i = s.txTail then _ else s.txDescs i).BufferAddress = _
      by_cases hit : i = s.txTail
      · rw [if_pos hit, hit]
      · rw [if_neg hit]
        exact (h i hi).2

/-- Every public driver operation preserves the buffer-address invariant. -/
lemma runOp_bufInv (s : DriverState) (op : NicOp) (h : BufInv s) :
    BufInv (runOp s op) ∧
    (runOp s op).rxBuffersPhys = s.rxBuffersPhys ∧
    (runOp s op).txBuffersPhys = s.txBuffersPhys := by
  cases op with
  | send d l => exact sendPacket_bufInv s d l h
  | pollOp =>
    show BufInv (poll s) ∧ (poll s).rxBuffersPhys = _ ∧ (poll s).txBuffersPhys = _
    unfold poll pollRx
    split
    · exact ⟨h, rfl, rfl⟩
    · split
      · exact ⟨h, rfl, rfl⟩
      · obtain ⟨p1, p2, p3, p4⟩ := rxDrainLoop_frame (RX_DESC_COUNT + 1) { s with polling := true }
        refine ⟨?_, p1, p2⟩
        intro i hi
        constructor
        · rw [p4 i, p1]
          exact (h i hi).1
        · rw [show (rxDrainLoop (RX_DESC_COUNT + 1) { s with polling := true }).txDescs =
            ({ s with polling := true } : DriverState).txDescs from p3, p2]
          exact (h i hi).2
  | intr icr =>
    show BufInv (handleInterrupt s icr) ∧ (handleInterrupt s icr).rxBuffersPhys = _ ∧
      (handleInterrupt s icr).txBuffersPhys = _
    unfold handleInterrupt
    split
    · exact ⟨h, rfl, rfl⟩
    · split
      · obtain ⟨p1, p2, p3, p4⟩ := rxDrainLoop_frame (RX_DESC_COUNT + 1) s
        refine ⟨?_, p1, p2⟩
        intro i hi
        constructor
        · rw [p4 i, p1]
          exact (h i hi).1
        · rw [show (rxDrainLoop (RX_DESC_COUNT + 1) s).txDescs = s.txDescs from p3, p2]
          exact (h i hi).2
      · exact ⟨h, rfl, rfl⟩

/-- Operation sequences preserve the invariant and the tables. -/
lemma runOps_bufInv (ops : List NicOp) :
    ∀ s, BufInv s →
    BufInv (runOps s ops) ∧
    (runOps s ops).rxBuffersPhys = s.rxBuffersPhys ∧
    (runOps s ops).txBuffersPhys = s.txBuffersPhys := by
  induction ops with
  | nil => intro s h; exact ⟨h, rfl, rfl⟩
  | cons op ops iho =>
    intro s h
    obtain ⟨h1, h2, h3⟩ := runOp_bufInv s op h
    obtain ⟨g1, g2, g3⟩ := iho (runOp s op) h1
    refine ⟨g1, ?_, ?_⟩
    · show (runOps (runOp s op) ops).rxBuffersPhys = s.rxBuffersPhys
      rw [g2, h2]
    · show (runOps (runOp s op) ops).txBuffersPhys = s.txBuffersPhys
      rw [g3, h3]

/-- After both ring setups, the invariant holds and the tables agree with setup. -/
lemma setup_bufInv (s0 : DriverState) (dR dT : Nat) (physR physT virtR : Nat → Nat) :
    BufInv { setupTx (setupRx s0 dR physR virtR) dT physT with initialized := true } ∧
    (∀ i, i < 32 →
      ({ setupTx (setupRx s0 dR physR virtR) dT physT with
          initialized := true } : DriverState).rxBuffersPhys i = physR i ∧
      ({ setupTx (setupRx s0 dR physR virtR) dT physT with
          initialized := true } : DriverState).txBuffersPhys i = physT i) := by
  have hrxd : ∀ i, ({ setupTx (setupRx s0 dR physR virtR) dT physT with
      initialized := true } : DriverState).rxDescs i =
      (if i < RX_DESC_COUNT then
        { BufferAddress := physR i, Length := 0, Checksum := 0,
          Status := 0, Errors := 0, Special := 0 }
      else s0.rxDescs i) := fun i => rfl
  have htxd : ∀ i, ({ setupTx (setupRx s0 dR physR virtR) dT physT with
      initialized := true } : DriverState).txDescs i =
      (if i < TX_DESC_COUNT then
        { BufferAddress := physT i, Length := 0, ChecksumOffset := 0,
          Command := 0, Status := TXSTA_DD, ChecksumStart := 0, Special := 0 }
      else (setupRx s0 dR physR virtR).txDescs i) := fun i => rfl
  have hrxp : ∀ i, ({ setupTx (setupRx s0 dR physR virtR) dT physT with
      initialized := true } : DriverState).rxBuffersPhys i =
      (if i < RX_DESC_COUNT then physR i else s0.rxBuffersPhys i) := fun i => rfl
  have htxp : ∀ i, ({ setupTx (setupRx s0 dR physR virtR) dT physT with
      initialized := true } : DriverState).txBuffersPhys i =
      (if i < TX_DESC_COUNT then physT i else s0.txBuffersPhys i) := fun i => rfl
  constructor
  · intro i hi
    constructor
    · rw [hrxd i, hrxp i, if_pos (show i < RX_DESC_COUNT from hi),
        if_pos (show i < RX_DESC_COUNT from hi)]
    · rw [htxd i, htxp i, if_pos (show i < TX_DESC_COUNT from hi),
        if_pos (show i < TX_DESC_COUNT from hi)]
  · intro i hi
    constructor
    · rw [hrxp i, if_pos (show i < RX_DESC_COUNT from hi)]
    · rw [htxp i, if_pos (show i < TX_DESC_COUNT from hi)]

/--
C7: For every sequence of SendPacket, Poll, and interrupt-dispatch calls
executed after ring setup, each RX and each TX descriptor's BufferAddress
field equals the physical address of the packet buffer assigned to that
slot during ring setup: the RX drain never writes the field, and
SendPacket rewrites it only with that same per-slot address.
-/
theorem buffer_address_stable (s0 : DriverState) (dR dT : Nat)
    (physR physT virtR : Nat → Nat) (ops : List NicOp) (i : Nat) (hi : i < 32) :
    ((runOps { setupTx (setupRx s0 dR physR virtR) dT physT with
        initialized := true } ops).rxDescs i).BufferAddress = physR i ∧
    ((runOps { setupTx (setupRx s0 dR physR virtR) dT physT with
        initialized := true } ops).txDescs i).BufferAddress = physT i := by
  obtain ⟨hsetup, htables⟩ := setup_bufInv s0 dR dT physR physT virtR
  obtain ⟨hinv, hr, ht⟩ := runOps_bufInv ops _ hsetup
  obtain ⟨h1, h2⟩ := hinv i hi
  obtain ⟨t1, t2⟩ := htables i hi
  constructor
  · rw [h1, hr, t1]
  · rw [h2, ht, t2]

/-- Witness for `buffer_address_stable`: one poll and one send after setup. -/
theorem buffer_address_stable_witness :
    (0 : Nat) < 32 ∧
    ((runOps { setupTx (setupRx blankState 0 (fun i => 0x400000 + 0x1000 * i)
        (fun i => 0x500000 + 0x1000 * i)) 0 (fun i => 0x600000 + 0x1000 * i) with
        initialized := true } [NicOp.pollOp, NicOp.send (some [1]) 1]).rxDescs 0).BufferAddress =
      0x400000 ∧
    ((runOps { setupTx (setupRx blankState 0 (fun i => 0x400000 + 0x1000 * i)
        (fun i => 0x500000 + 0x1000 * i)) 0 (fun i => 0x600000 + 0x1000 * i) with
        initialized := true } [NicOp.pollOp, NicOp.send (some [1]) 1]).txDescs 0).BufferAddress =
      0x600000 := by
  have h := buffer_address_stable blankState 0 0 (fun i => 0x400000 + 0x1000 * i)
    (fun i => 0x600000 + 0x1000 * i) (fun i => 0x500000 + 0x1000 * i)
    [NicOp.pollOp, NicOp.send (some [1]) 1] 0 (by omega)
  exact ⟨by omega, by simpa using h.1, by simpa using h.2⟩

end E1000E
